import Mathlib

/-!
Verification of the option-pricing core of the Flask "what-if" tool
(src/app.py): the Black-Scholes valuation function `black_scholes_price`,
the price-axis builder `build_price_points`, and the date×price payoff
sweep performed by `index`.

Dates are modelled as day numbers in ℤ, so Python's
`(expiry_date - today).days` is the integer `expiry - today`.  All float
arithmetic is modelled over ℝ.
-/

noncomputable section

namespace FlaskApp

open Real

/-- `math.erf` from the Python standard library, modelled as the Gauss error
function `erf x = (2/√π) · ∫ t in 0..x, exp (-t²)`. -/
def erf (x : ℝ) : ℝ := (2 / Real.sqrt π) * ∫ t in (0:ℝ)..x, Real.exp (-(t ^ 2))

/-- `norm_cdf` from src/app.py line 9: standard normal CDF,
`0.5 * (1.0 + math.erf(x / math.sqrt(2.0)))`. -/
def norm_cdf (x : ℝ) : ℝ := 0.5 * (1 + erf (x / Real.sqrt 2))

/-- The quantity `d1` computed at src/app.py line 31:
`(log(S/K) + (r + 0.5*sigma*sigma)*T) / (sigma*sqrt(T))`. -/
def bs_d1 (S K T r sigma : ℝ) : ℝ :=
  (Real.log (S / K) + (r + 0.5 * sigma * sigma) * T) / (sigma * Real.sqrt T)

/-- The quantity `d2` computed at src/app.py line 32: `d1 - sigma*sqrt(T)`. -/
def bs_d2 (S K T r sigma : ℝ) : ℝ := bs_d1 S K T r sigma - sigma * Real.sqrt T

/-- `black_scholes_price` from src/app.py lines 14-37.  The intrinsic-value
fallback fires when `T <= 0 or sigma <= 0`; otherwise the closed-form
Black-Scholes value is returned, the put branch being taken for every
`option_type` other than `"call"`. -/
def black_scholes_price (S K T r sigma : ℝ) (option_type : String) : ℝ :=
  if T ≤ 0 ∨ sigma ≤ 0 then
    if option_type = "call" then max 0 (S - K) else max 0 (K - S)
  else
    if option_type = "call" then
      S * norm_cdf (bs_d1 S K T r sigma)
        - K * Real.exp (-r * T) * norm_cdf (bs_d2 S K T r sigma)
    else
      K * Real.exp (-r * T) * norm_cdf (-bs_d2 S K T r sigma)
        - S * norm_cdf (-bs_d1 S K T r sigma)

/-- Python `round(x, 2)`: rounding to 2 decimal places.  (Python rounds a tie
to the even last digit; over ℝ we round a tie up.  No input in any claim is a
tie, and no claim distinguishes the two conventions.) -/
def round2 (x : ℝ) : ℝ := (round (x * 100) : ℤ) / 100

/-- The `while` loop of `build_price_points` (src/app.py lines 41-46), indexed
by fuel: with fuel `n+1`, if `current <= stock_max + 1e-9` emit
`round(current, 2)` and continue from `current + step`, else stop. -/
def bpp_loop (stock_max step : ℝ) : ℕ → ℝ → List ℝ
  | 0, _ => []
  | n + 1, current =>
    if current ≤ stock_max + 1e-9 then
      round2 current :: bpp_loop stock_max step n (current + step)
    else []

/-- Fuel sufficient for `bpp_loop` to run to completion when `0 < step`
(theorem `C9_termination` below shows adding fuel beyond this changes
nothing). -/
def bpp_fuelFor (stock_min stock_max step : ℝ) : ℕ :=
  (⌈(stock_max + 1e-9 - stock_min) / step⌉).toNat + 1

/-- `build_price_points` from src/app.py lines 40-46. -/
def build_price_points (stock_min stock_max step : ℝ) : List ℝ :=
  bpp_loop stock_max step (bpp_fuelFor stock_min stock_max step) stock_min

/-- `total_days = max(0, (expiry_date - today).days)` from src/app.py
line 72.  `Int.toNat` is exactly `max 0 ·` followed by the cast. -/
def total_days (today expiry : ℤ) : ℕ := (expiry - today).toNat

/-- The date axis `date_list` accumulated by the sweep in `index`
(src/app.py lines 104-110): `today + day_offset` for
`day_offset in range(total_days + 1)`. -/
def date_list (today expiry : ℤ) : List ℤ :=
  (List.range (total_days today expiry + 1)).map fun off : ℕ => today + (off : ℤ)

/-- The inner loop of the sweep (src/app.py lines 116-133): for each price
sample `p`, the pair (price key, total P/L), where total P/L is
`(option_price*100 - premium*100) * contracts`.  The Python price key
`f"{p:.2f}"` is injective on the 2-decimal price samples, so we key by `p`
itself. -/
def daily_map (strike premium : ℝ) (contracts : ℤ) (option_type : String)
    (sigma T : ℝ) (price_points : List ℝ) : List (ℝ × ℝ) :=
  price_points.map fun p =>
    (p, (black_scholes_price p strike T 0.02 sigma option_type * 100
          - premium * 100) * (contracts : ℝ))

/-- The date×price grid built by `index` (src/app.py lines 99-135), as an
association list in insertion order.  The risk-free rate is the fixed
`r = 0.02` of line 101, `sigma = implied_volatility / 100` (line 102), and
`T = max(0, (expiry_date - d).days) / 365` (lines 113-114). -/
def grid (strike premium : ℝ) (contracts : ℤ) (option_type : String)
    (implied_volatility : ℝ) (today expiry : ℤ) (price_points : List ℝ) :
    List (ℤ × List (ℝ × ℝ)) :=
  (List.range (total_days today expiry + 1)).map fun off : ℕ =>
    let d : ℤ := today + (off : ℤ)
    let T : ℝ := ((expiry - d).toNat : ℝ) / 365
    (d, daily_map strike premium contracts option_type
          (implied_volatility / 100) T price_points)

/-- One row of the expiry-only P/L table (the dict literal at src/app.py
lines 93-97). -/
structure ExpiryRow where
  price : ℝ
  pl_total : ℝ
  pl_per_contract : ℝ

/-- The expiry-only table `rows` from `index` (src/app.py lines 80-97):
intrinsic value at expiry, per-contract value ×100, P/L net of
`cost_per_contract = premium * 100`, total P/L × contract count. -/
def expiry_rows (strike premium : ℝ) (contracts : ℤ) (option_type : String)
    (price_points : List ℝ) : List ExpiryRow :=
  price_points.map fun p =>
    let intrinsic := if option_type = "call" then max 0 (p - strike)
                     else max 0 (strike - p)
    let value_per_contract := intrinsic * 100
    let pl_per_contract := value_per_contract - premium * 100
    { price := p
      pl_total := pl_per_contract * (contracts : ℝ)
      pl_per_contract := pl_per_contract }

/-- First-match association-list lookup: the read side of a Python dict whose
(distinct) keys were inserted in list order. -/
def alook {α β : Type} [DecidableEq α] : List (α × β) → α → Option β
  | [], _ => none
  | (a, b) :: t, k => if k = a then some b else alook t k

/-- `grid[d][p]`: look up a date key, then a price key. -/
def grid_lookup (g : List (ℤ × List (ℝ × ℝ))) (d : ℤ) (p : ℝ) : Option ℝ :=
  (alook g d).bind fun row => alook row p

/-! ### Helper lemmas -/

lemma bs_boundary (S K T r sigma : ℝ) (option_type : String)
    (h : T ≤ 0 ∨ sigma ≤ 0) :
    black_scholes_price S K T r sigma option_type =
      if option_type = "call" then max 0 (S - K) else max 0 (K - S) := by
  simp only [black_scholes_price, if_pos h]

lemma bs_ne_call (S K T r sigma : ℝ) (option_type : String)
    (h : option_type ≠ "call") :
    black_scholes_price S K T r sigma option_type =
      black_scholes_price S K T r sigma "put" := by
  simp only [black_scholes_price, if_neg h,
    if_neg (by decide : ¬("put" : String) = "call")]

lemma alook_map_self {α β : Type} [DecidableEq α] (F : α → β) :
    ∀ (l : List α) {d : α}, d ∈ l →
      alook (l.map fun x => (x, F x)) d = some (F d)
  | [], _, hd => absurd hd (List.not_mem_nil _)
  | a :: t, d, hd => by
    rw [List.map_cons, alook]
    by_cases h : d = a
    · subst h
      simp
    · rw [if_neg h]
      rcases List.mem_cons.mp hd with h' | h'
      · exact absurd h' h
      · exact alook_map_self F t h'

/-- The grid is the date axis, each date paired with its inner price map. -/
lemma grid_eq_map (strike premium : ℝ) (contracts : ℤ) (option_type : String)
    (iv : ℝ) (today expiry : ℤ) (pps : List ℝ) :
    grid strike premium contracts option_type iv today expiry pps =
      (date_list today expiry).map fun d =>
        (d, daily_map strike premium contracts option_type (iv / 100)
              (((expiry - d).toNat : ℝ) / 365) pps) := by
  rw [grid, date_list, List.map_map]
  rfl

lemma expiry_mem_date_list {today expiry : ℤ} (h : today ≤ expiry) :
    expiry ∈ date_list today expiry := by
  rw [date_list]
  refine List.mem_map.mpr ⟨total_days today expiry, ?_, ?_⟩
  · exact List.mem_range.mpr (Nat.lt_succ_self _)
  · rw [total_days, Int.toNat_of_nonneg (by omega)]
    omega

lemma grid_lookup_eq (strike premium : ℝ) (contracts : ℤ) (option_type : String)
    (iv : ℝ) (today expiry : ℤ) (pps : List ℝ) {d : ℤ} {p : ℝ}
    (hd : d ∈ date_list today expiry) (hp : p ∈ pps) :
    grid_lookup (grid strike premium contracts option_type iv today expiry pps)
        d p =
      some ((black_scholes_price p strike (((expiry - d).toNat : ℝ) / 365) 0.02
          (iv / 100) option_type * 100 - premium * 100) * (contracts : ℝ)) := by
  rw [grid_lookup, grid_eq_map, alook_map_self _ _ hd, Option.some_bind,
    daily_map, alook_map_self _ _ hp]

lemma bpp_loop_cons (stock_max step c : ℝ) (n : ℕ) (h : c ≤ stock_max + 1e-9) :
    bpp_loop stock_max step (n + 1) c =
      round2 c :: bpp_loop stock_max step n (c + step) := by
  simp only [bpp_loop]
  rw [if_pos h]

lemma bpp_loop_stop (stock_max step c : ℝ) (n : ℕ)
    (h : ¬c ≤ stock_max + 1e-9) : bpp_loop stock_max step (n + 1) c = [] := by
  simp only [bpp_loop]
  rw [if_neg h]

lemma bpp_loop_cons' (stock_max step c : ℝ) (n m : ℕ) (hn : n = m + 1)
    (h : c ≤ stock_max + 1e-9) :
    bpp_loop stock_max step n c =
      round2 c :: bpp_loop stock_max step m (c + step) := by
  subst hn
  exact bpp_loop_cons stock_max step c m h

lemma bpp_loop_stop' (stock_max step c : ℝ) (n m : ℕ) (hn : n = m + 1)
    (h : ¬c ≤ stock_max + 1e-9) : bpp_loop stock_max step n c = [] := by
  subst hn
  exact bpp_loop_stop stock_max step c m h

lemma round2_val (x : ℝ) (n : ℤ) (h1 : (n : ℝ) ≤ x * 100 + 1 / 2)
    (h2 : x * 100 + 1 / 2 < (n : ℝ) + 1) : round2 x = (n : ℝ) / 100 := by
  rw [round2, round_eq,
    show ⌊x * 100 + 1 / 2⌋ = n from
      Int.floor_eq_iff.mpr ⟨h1, by exact_mod_cast h2⟩]

lemma fuelFor_ten_twenty : bpp_fuelFor 10 20 1 = 12 := by
  rw [bpp_fuelFor,
    show ⌈((20 : ℝ) + 1e-9 - 10) / 1⌉ = 11 from
      Int.ceil_eq_iff.mpr ⟨by norm_num, by norm_num⟩]
  rfl

lemma fuelFor_ten_ten : bpp_fuelFor 10 10 1 = 2 := by
  rw [bpp_fuelFor,
    show ⌈((10 : ℝ) + 1e-9 - 10) / 1⌉ = 1 from
      Int.ceil_eq_iff.mpr ⟨by norm_num, by norm_num⟩]
  rfl

lemma bpp_ten_twenty :
    build_price_points 10 20 1 =
      [10, 11, 12, 13, 14, 15, 16, 17, 18, 19, 20] := by
  rw [build_price_points, fuelFor_ten_twenty]
  rw [bpp_loop_cons' _ _ _ 12 11 rfl (by norm_num)]
  rw [bpp_loop_cons' _ _ _ 11 10 rfl (by norm_num)]
  rw [bpp_loop_cons' _ _ _ 10 9 rfl (by norm_num)]
  rw [bpp_loop_cons' _ _ _ 9 8 rfl (by norm_num)]
  rw [bpp_loop_cons' _ _ _ 8 7 rfl (by norm_num)]
  rw [bpp_loop_cons' _ _ _ 7 6 rfl (by norm_num)]
  rw [bpp_loop_cons' _ _ _ 6 5 rfl (by norm_num)]
  rw [bpp_loop_cons' _ _ _ 5 4 rfl (by norm_num)]
  rw [bpp_loop_cons' _ _ _ 4 3 rfl (by norm_num)]
  rw [bpp_loop_cons' _ _ _ 3 2 rfl (by norm_num)]
  rw [bpp_loop_cons' _ _ _ 2 1 rfl (by norm_num)]
  rw [bpp_loop_stop' _ _ _ 1 0 rfl (by norm_num)]
  rw [round2_val 10 1000 (by norm_num) (by norm_num),
    round2_val (10 + 1) 1100 (by norm_num) (by norm_num),
    round2_val (10 + 1 + 1) 1200 (by norm_num) (by norm_num),
    round2_val (10 + 1 + 1 + 1) 1300 (by norm_num) (by norm_num),
    round2_val (10 + 1 + 1 + 1 + 1) 1400 (by norm_num) (by norm_num),
    round2_val (10 + 1 + 1 + 1 + 1 + 1) 1500 (by norm_num) (by norm_num),
    round2_val (10 + 1 + 1 + 1 + 1 + 1 + 1) 1600 (by norm_num) (by norm_num),
    round2_val (10 + 1 + 1 + 1 + 1 + 1 + 1 + 1) 1700 (by norm_num)
      (by norm_num),
    round2_val (10 + 1 + 1 + 1 + 1 + 1 + 1 + 1 + 1) 1800 (by norm_num)
      (by norm_num),
    round2_val (10 + 1 + 1 + 1 + 1 + 1 + 1 + 1 + 1 + 1) 1900 (by norm_num)
      (by norm_num),
    round2_val (10 + 1 + 1 + 1 + 1 + 1 + 1 + 1 + 1 + 1 + 1) 2000 (by norm_num)
      (by norm_num)]
  norm_num

lemma bpp_ten_ten : build_price_points 10 10 1 = [10] := by
  rw [build_price_points, fuelFor_ten_ten]
  rw [bpp_loop_cons' _ _ _ 2 1 rfl (by norm_num)]
  rw [bpp_loop_stop' _ _ _ 1 0 rfl (by norm_num)]
  rw [round2_val 10 1000 (by norm_num) (by norm_num)]
  norm_num

lemma bpp_loop_dead (stock_max step c : ℝ) (h : ¬c ≤ stock_max + 1e-9) :
    ∀ n, bpp_loop stock_max step n c = []
  | 0 => rfl
  | n + 1 => bpp_loop_stop stock_max step c n h

/-- With positive step, the loop result is independent of the fuel once the
fuel exceeds the number of remaining iterations: the `while` loop
terminates. -/
lemma bpp_loop_stable (stock_max step : ℝ) (hstep : 0 < step) :
    ∀ (k : ℕ) (c : ℝ) (n m : ℕ), (stock_max + 1e-9 - c) / step < (k : ℝ) →
      k ≤ n → k ≤ m →
      bpp_loop stock_max step n c = bpp_loop stock_max step m c := by
  intro k
  induction k with
  | zero =>
    intro c n m hk _ _
    have hc : ¬c ≤ stock_max + 1e-9 := by
      intro hle
      have h0 : 0 ≤ (stock_max + 1e-9 - c) / step :=
        div_nonneg (by linarith) hstep.le
      norm_num at hk
      linarith
    rw [bpp_loop_dead _ _ _ hc n, bpp_loop_dead _ _ _ hc m]
  | succ k ih =>
    intro c n m hk hn hm
    obtain ⟨n', rfl⟩ : ∃ n', n = n' + 1 := ⟨n - 1, by omega⟩
    obtain ⟨m', rfl⟩ : ∃ m', m = m' + 1 := ⟨m - 1, by omega⟩
    by_cases hc : c ≤ stock_max + 1e-9
    · rw [bpp_loop_cons _ _ _ _ hc, bpp_loop_cons _ _ _ _ hc]
      congr 1
      refine ih (c + step) n' m' ?_ (by omega) (by omega)
      have hdiv : (stock_max + 1e-9 - (c + step)) / step =
          (stock_max + 1e-9 - c) / step - 1 := by
        field_simp
        ring
      push_cast at hk
      rw [hdiv]
      linarith
    · rw [bpp_loop_dead _ _ _ hc, bpp_loop_dead _ _ _ hc]

lemma fuelFor_enough (stock_min stock_max step : ℝ) :
    (stock_max + 1e-9 - stock_min) / step <
      ((bpp_fuelFor stock_min stock_max step : ℕ) : ℝ) := by
  rw [bpp_fuelFor]
  push_cast
  have h1 : (stock_max + 1e-9 - stock_min) / step ≤
      (⌈(stock_max + 1e-9 - stock_min) / step⌉ : ℝ) := Int.le_ceil _
  have h2 : (⌈(stock_max + 1e-9 - stock_min) / step⌉ : ℝ) ≤
      ((⌈(stock_max + 1e-9 - stock_min) / step⌉.toNat : ℕ) : ℝ) := by
    exact_mod_cast Int.self_le_toNat _
  linarith

lemma bpp_loop_head_cases (stock_max step : ℝ) (n : ℕ) (c : ℝ) :
    (bpp_loop stock_max step n c).head? = none ∨
    (bpp_loop stock_max step n c).head? = some (round2 c) := by
  cases n with
  | zero => exact Or.inl rfl
  | succ m =>
    by_cases h : c ≤ stock_max + 1e-9
    · exact Or.inr (by rw [bpp_loop_cons _ _ _ _ h]; rfl)
    · exact Or.inl (by rw [bpp_loop_stop _ _ _ _ h]; rfl)

lemma round2_add_one (c : ℝ) : round2 (c + 1) = round2 c + 1 := by
  rw [round2, round2,
    show (c + 1) * 100 = c * 100 + ((100 : ℤ) : ℝ) by push_cast; ring,
    round_add_int]
  push_cast
  ring

/-- With step 1, consecutive loop outputs increase strictly. -/
lemma bpp_loop_chain (stock_max : ℝ) :
    ∀ (n : ℕ) (c : ℝ),
      List.Chain' (fun a b => a < b) (bpp_loop stock_max 1 n c) := by
  intro n
  induction n with
  | zero =>
    intro c
    exact List.chain'_nil
  | succ m ih =>
    intro c
    by_cases h : c ≤ stock_max + 1e-9
    · rw [bpp_loop_cons _ _ _ _ h, List.chain'_cons']
      refine ⟨?_, ih (c + 1)⟩
      intro y hy
      rcases bpp_loop_head_cases stock_max 1 m (c + 1) with h' | h'
      · rw [h'] at hy
        simp at hy
      · rw [h'] at hy
        have hy' : round2 (c + 1) = y := by simpa using hy
        rw [← hy', round2_add_one]
        linarith
    · rw [bpp_loop_stop _ _ _ _ h]
      exact List.chain'_nil

/-- Every loop output is an integer number of hundredths. -/
lemma bpp_loop_hundredths (stock_max step : ℝ) :
    ∀ (n : ℕ) (c x : ℝ), x ∈ bpp_loop stock_max step n c →
      ∃ m : ℤ, x = (m : ℝ) / 100 := by
  intro n
  induction n with
  | zero =>
    intro c x hx
    exact absurd hx (List.not_mem_nil x)
  | succ k ih =>
    intro c x hx
    by_cases h : c ≤ stock_max + 1e-9
    · rw [bpp_loop_cons _ _ _ _ h] at hx
      rcases List.mem_cons.mp hx with h' | h'
      · exact ⟨round (c * 100), by rw [h', round2]⟩
      · exact ih (c + step) x h'
    · rw [bpp_loop_stop _ _ _ _ h] at hx
      exact absurd hx (List.not_mem_nil x)

/-! ### Properties of the error function and the normal CDF -/

lemma gauss_continuous : Continuous fun t : ℝ => Real.exp (-(t ^ 2)) :=
  Real.continuous_exp.comp (continuous_pow 2).neg

lemma erf_zero : erf 0 = 0 := by
  rw [erf, intervalIntegral.integral_same, mul_zero]

lemma erf_neg (x : ℝ) : erf (-x) = -erf x := by
  have h2 : (∫ t in (0:ℝ)..(-x), (fun s : ℝ => Real.exp (-(s ^ 2))) (-t))
      = ∫ t in (-(-x))..(-(0:ℝ)), (fun s : ℝ => Real.exp (-(s ^ 2))) t :=
    intervalIntegral.integral_comp_neg fun s : ℝ => Real.exp (-(s ^ 2))
  simp only [neg_sq, neg_neg, neg_zero] at h2
  rw [erf, erf, h2, intervalIntegral.integral_symm]
  ring

lemma erf_le (x : ℝ) (hx : 0 ≤ x) : erf x ≤ 2 / Real.sqrt π * x := by
  rw [erf]
  have hint : (∫ t in (0:ℝ)..x, Real.exp (-(t ^ 2))) ≤
      ∫ t in (0:ℝ)..x, (1 : ℝ) := by
    refine intervalIntegral.integral_mono_on hx
      (gauss_continuous.intervalIntegrable 0 x)
      (continuous_const.intervalIntegrable 0 x) ?_
    intro t ht
    calc Real.exp (-(t ^ 2)) ≤ Real.exp 0 :=
          Real.exp_le_exp.mpr (neg_nonpos.mpr (sq_nonneg t))
      _ = 1 := Real.exp_zero
  rw [intervalIntegral.integral_const, smul_eq_mul, sub_zero, mul_one] at hint
  exact mul_le_mul_of_nonneg_left hint (by positivity)

lemma erf_ge (x : ℝ) (hx : 0 ≤ x) :
    2 / Real.sqrt π * (x * Real.exp (-(x ^ 2))) ≤ erf x := by
  rw [erf]
  have hint : (∫ t in (0:ℝ)..x, Real.exp (-(x ^ 2))) ≤
      ∫ t in (0:ℝ)..x, Real.exp (-(t ^ 2)) := by
    refine intervalIntegral.integral_mono_on hx
      (continuous_const.intervalIntegrable 0 x)
      (gauss_continuous.intervalIntegrable 0 x) ?_
    intro t ht
    refine Real.exp_le_exp.mpr ?_
    have ht0 : 0 ≤ t := ht.1
    have ht1 : t ≤ x := ht.2
    nlinarith
  rw [intervalIntegral.integral_const, smul_eq_mul, sub_zero] at hint
  exact mul_le_mul_of_nonneg_left hint (by positivity)

lemma norm_cdf_neg (x : ℝ) : norm_cdf (-x) = 1 - norm_cdf x := by
  rw [norm_cdf, norm_cdf, neg_div, erf_neg]
  ring

lemma norm_cdf_zero : norm_cdf 0 = 1 / 2 := by
  rw [norm_cdf, zero_div, erf_zero]
  norm_num

/-! ### Numeric bounds for the concrete scenario -/

lemma sqrt_two_bounds : 1.414 < Real.sqrt 2 ∧ Real.sqrt 2 < 1.4143 := by
  have hsq := Real.sq_sqrt (show (0:ℝ) ≤ 2 by norm_num)
  have hnn := Real.sqrt_nonneg 2
  constructor <;> nlinarith

lemma sqrt_pi_bounds : 1.7724 < Real.sqrt π ∧ Real.sqrt π < 1.7725 := by
  have hpi1 := Real.pi_gt_d4
  have hpi2 := Real.pi_lt_d4
  have hsq := Real.sq_sqrt Real.pi_pos.le
  have hnn := Real.sqrt_nonneg π
  constructor <;> nlinarith

lemma exp_neg_002_bounds :
    0.98 ≤ Real.exp (-0.02) ∧ Real.exp (-0.02) ≤ 0.9804 := by
  constructor
  · have h := Real.add_one_le_exp (-0.02 : ℝ)
    linarith
  · have h1 : (1.02 : ℝ) ≤ Real.exp 0.02 := by
      have h := Real.add_one_le_exp (0.02 : ℝ)
      linarith
    have hmul : Real.exp (-0.02) * Real.exp 0.02 = 1 := by
      rw [← Real.exp_add]
      norm_num
    have hpos := Real.exp_pos (-0.02 : ℝ)
    nlinarith

lemma erf_x0_bounds :
    0.1563 < erf (0.2 / Real.sqrt 2) ∧ erf (0.2 / Real.sqrt 2) < 0.1597 := by
  obtain ⟨hs2l, hs2u⟩ := sqrt_two_bounds
  obtain ⟨hspl, hspu⟩ := sqrt_pi_bounds
  have hs2pos : (0:ℝ) < Real.sqrt 2 := by linarith
  have hsppos : (0:ℝ) < Real.sqrt π := by linarith
  have hx0 : (0:ℝ) ≤ 0.2 / Real.sqrt 2 := by positivity
  have hx0sq : (0.2 / Real.sqrt 2) ^ 2 = 0.02 := by
    rw [div_pow, Real.sq_sqrt (show (0:ℝ) ≤ 2 by norm_num)]
    norm_num
  constructor
  · have hlow := erf_ge (0.2 / Real.sqrt 2) hx0
    rw [hx0sq] at hlow
    obtain ⟨hexl, -⟩ := exp_neg_002_bounds
    have hrw : 2 / Real.sqrt π * (0.2 / Real.sqrt 2 * Real.exp (-0.02)) =
        0.4 * Real.exp (-0.02) / (Real.sqrt π * Real.sqrt 2) := by
      field_simp
      ring
    rw [hrw] at hlow
    have hkey : (0.1563 : ℝ) <
        0.4 * Real.exp (-0.02) / (Real.sqrt π * Real.sqrt 2) := by
      rw [lt_div_iff₀ (by positivity)]
      nlinarith
    linarith
  · have hup := erf_le (0.2 / Real.sqrt 2) hx0
    have hrw : 2 / Real.sqrt π * (0.2 / Real.sqrt 2) =
        0.4 / (Real.sqrt π * Real.sqrt 2) := by
      field_simp
      ring
    rw [hrw] at hup
    have hkey : 0.4 / (Real.sqrt π * Real.sqrt 2) < (0.1597 : ℝ) := by
      rw [div_lt_iff₀ (by positivity)]
      nlinarith
    linarith

lemma norm_cdf_point_two_bounds :
    0.57815 < norm_cdf 0.2 ∧ norm_cdf 0.2 < 0.57985 := by
  obtain ⟨hl, hu⟩ := erf_x0_bounds
  constructor
  · rw [norm_cdf]
    linarith
  · rw [norm_cdf]
    linarith

lemma bs_d1_concrete : bs_d1 100 100 1 0.02 0.2 = 0.2 := by
  rw [bs_d1]
  norm_num [Real.sqrt_one, Real.log_one]

lemma bs_d2_concrete : bs_d2 100 100 1 0.02 0.2 = 0 := by
  rw [bs_d2, bs_d1_concrete]
  norm_num [Real.sqrt_one]

lemma bs_call_concrete : black_scholes_price 100 100 1 0.02 0.2 "call" =
    100 * norm_cdf 0.2 - 100 * Real.exp (-0.02) * (1 / 2) := by
  rw [black_scholes_price, if_neg (by rintro (h | h) <;> norm_num at h),
    if_pos rfl, bs_d1_concrete, bs_d2_concrete, norm_cdf_zero]
  norm_num

lemma bs_call_concrete_bounds :
    8.5 < black_scholes_price 100 100 1 0.02 0.2 "call" ∧
    black_scholes_price 100 100 1 0.02 0.2 "call" < 9 := by
  rw [bs_call_concrete]
  obtain ⟨hfl, hfu⟩ := norm_cdf_point_two_bounds
  obtain ⟨hexl, hexu⟩ := exp_neg_002_bounds
  constructor <;> linarith

/-! ### Claims -/

/-- C1: for every underlying price `S`, strike `K`, rate `r`, option type,
and every `T ≤ 0` or `sigma ≤ 0`, `black_scholes_price` returns exactly the
intrinsic value: `max 0 (S - K)` for a call and `max 0 (K - S)` otherwise. -/
theorem C1_boundary_intrinsic (S K T r sigma : ℝ) (option_type : String)
    (h : T ≤ 0 ∨ sigma ≤ 0) :
    black_scholes_price S K T r sigma option_type =
      if option_type = "call" then max 0 (S - K) else max 0 (K - S) :=
  bs_boundary S K T r sigma option_type h

/-- Witness for C1 at `S=5, K=3, T=0, r=0.1, sigma=0.4`, both option types. -/
theorem C1_boundary_intrinsic_witness :
    black_scholes_price 5 3 0 0.1 0.4 "call" = max 0 (5 - 3) ∧
    black_scholes_price 5 3 0 0.1 0.4 "put" = max 0 (3 - 5) := by
  have hc := C1_boundary_intrinsic 5 3 0 0.1 0.4 "call" (Or.inl le_rfl)
  have hp := C1_boundary_intrinsic 5 3 0 0.1 0.4 "put" (Or.inl le_rfl)
  simp only [reduceIte] at hc hp
  exact ⟨hc, hp⟩

/-- C10: an `option_type` other than `"call"` is priced as a put: the general
branch returns the put value, the boundary branch returns `max 0 (K - S)`,
and consequently the whole sweep grid for such a type equals the grid for
`"put"` — no error is signalled. -/
theorem C10_non_call_priced_as_put (S K T r sigma strike premium iv : ℝ)
    (contracts today expiry : ℤ) (pps : List ℝ) (option_type : String)
    (h : option_type ≠ "call") :
    black_scholes_price S K T r sigma option_type =
      black_scholes_price S K T r sigma "put" ∧
    ((T ≤ 0 ∨ sigma ≤ 0) →
      black_scholes_price S K T r sigma option_type = max 0 (K - S)) ∧
    grid strike premium contracts option_type iv today expiry pps =
      grid strike premium contracts "put" iv today expiry pps := by
  refine ⟨bs_ne_call S K T r sigma option_type h, ?_, ?_⟩
  · intro hb
    rw [bs_boundary S K T r sigma option_type hb, if_neg h]
  · unfold grid daily_map
    refine List.map_congr_left fun off _ => ?_
    refine congrArg _ (List.map_congr_left fun p _ => ?_)
    rw [bs_ne_call _ _ _ _ _ _ h]

/-- Witness for C10 at `option_type = "potato"` and concrete numeric inputs. -/
theorem C10_non_call_priced_as_put_witness :
    black_scholes_price 4 7 0 0.02 0.3 "potato" =
      black_scholes_price 4 7 0 0.02 0.3 "put" ∧
    black_scholes_price 4 7 0 0.02 0.3 "potato" = max 0 (7 - 4) ∧
    grid 7 1 2 "potato" 30 0 1 [4] = grid 7 1 2 "put" 30 0 1 [4] := by
  obtain ⟨h1, h2, h3⟩ :=
    C10_non_call_priced_as_put 4 7 0 0.02 0.3 7 1 30 2 0 1 [4] "potato"
      (by decide)
  exact ⟨h1, h2 (Or.inl le_rfl), h3⟩

/-- C6: the date axis has exactly `max(0, days from today to expiry) + 1`
entries; its first entry is `today`; its last entry is `expiry` when expiry is
not in the past; and if expiry is strictly before today it collapses to the
single entry `[today]`. -/
theorem C6_date_axis_shape (today expiry : ℤ) :
    (date_list today expiry).length = (expiry - today).toNat + 1 ∧
    (date_list today expiry).head? = some today ∧
    (today ≤ expiry → (date_list today expiry).getLast? = some expiry) ∧
    (expiry < today → date_list today expiry = [today]) := by
  refine ⟨by simp [date_list, total_days], ?_, ?_, ?_⟩
  · rw [date_list, List.range_succ_eq_map]
    simp
  · intro h
    rw [date_list, List.range_succ, List.map_append, List.map_cons,
      List.map_nil, List.getLast?_concat]
    rw [total_days, Int.toNat_of_nonneg (by omega)]
    norm_num
  · intro h
    rw [date_list, total_days, Int.toNat_of_nonpos (by omega)]
    rw [show List.range 1 = [0] from rfl]
    simp

/-- Witness for C6 at `today = 0`, `expiry = 3` (future) and `today = 3`,
`expiry = 0` (past). -/
theorem C6_date_axis_shape_witness :
    (date_list 0 3).length = 4 ∧ (date_list 0 3).head? = some 0 ∧
    (date_list 0 3).getLast? = some 3 ∧ date_list 3 0 = [3] := by
  obtain ⟨h1, h2, h3, -⟩ := C6_date_axis_shape 0 3
  obtain ⟨-, -, -, h4⟩ := C6_date_axis_shape 3 0
  exact ⟨by simpa using h1, h2, h3 (by norm_num), h4 (by norm_num)⟩

/-- C3: for every date `d` in the date axis and price sample `p` in the price
axis, the grid value at keys `(d, p)` (the price key `f"{p:.2f}"` is read as
the 2-decimal sample `p` itself) equals
`(black_scholes_price(S=p, K=strike, T=max(0, days from d to expiry)/365,
r=0.02, sigma=iv/100, option_type) * 100 - premium * 100) * contracts`. -/
theorem C3_grid_cell_formula (strike premium iv : ℝ)
    (contracts today expiry : ℤ) (option_type : String) (smin smax : ℝ)
    (d : ℤ) (p : ℝ) (hd : d ∈ date_list today expiry)
    (hp : p ∈ build_price_points smin smax 1) :
    grid_lookup (grid strike premium contracts option_type iv today expiry
        (build_price_points smin smax 1)) d p =
      some ((black_scholes_price p strike (((expiry - d).toNat : ℝ) / 365) 0.02
          (iv / 100) option_type * 100 - premium * 100) * (contracts : ℝ)) :=
  grid_lookup_eq _ _ _ _ _ _ _ _ hd hp

/-- Witness for C3: `today = 0`, `expiry = 1`, a one-point price axis. -/
theorem C3_grid_cell_formula_witness :
    grid_lookup (grid 10 1 1 "call" 30 0 1 (build_price_points 10 10 1))
        1 10 =
      some ((black_scholes_price 10 10 ((((1 : ℤ) - 1).toNat : ℝ) / 365) 0.02
          (30 / 100) "call" * 100 - 1 * 100) * ((1 : ℤ) : ℝ)) :=
  C3_grid_cell_formula 10 1 30 1 0 1 "call" 10 10 1 10 (by decide)
    (by rw [bpp_ten_ten]; simp)

/-- C4: when expiry is today or later, the grid's inner mapping at the
expiry-date key assigns to each price sample the same total P/L as the
expiry-only table's row for that sample, both equal to
`(intrinsic * 100 - premium * 100) * contracts`. -/
theorem C4_grid_expiry_matches_table (strike premium iv : ℝ)
    (contracts today expiry : ℤ) (option_type : String) (smin smax : ℝ)
    (h : today ≤ expiry) (p : ℝ) (hp : p ∈ build_price_points smin smax 1) :
    grid_lookup (grid strike premium contracts option_type iv today expiry
        (build_price_points smin smax 1)) expiry p =
      some (((if option_type = "call" then max 0 (p - strike)
          else max 0 (strike - p)) * 100 - premium * 100) * (contracts : ℝ)) ∧
    alook ((expiry_rows strike premium contracts option_type
          (build_price_points smin smax 1)).map fun row =>
        (row.price, row.pl_total)) p =
      some (((if option_type = "call" then max 0 (p - strike)
          else max 0 (strike - p)) * 100 - premium * 100) * (contracts : ℝ)) := by
  constructor
  · rw [grid_lookup_eq _ _ _ _ _ _ _ _ (expiry_mem_date_list h) hp, sub_self,
      Int.toNat_zero, Nat.cast_zero, zero_div,
      bs_boundary p strike 0 0.02 (iv / 100) option_type (Or.inl le_rfl)]
  · rw [expiry_rows, List.map_map]
    exact alook_map_self _ _ hp

/-- Witness for C4: `today = 0 ≤ expiry = 1`, one-point price axis. -/
theorem C4_grid_expiry_matches_table_witness :
    grid_lookup (grid 10 1 1 "call" 30 0 1 (build_price_points 10 10 1))
        1 10 =
      some (((if "call" = "call" then max 0 ((10 : ℝ) - 10)
          else max 0 ((10 : ℝ) - 10)) * 100 - 1 * 100) * ((1 : ℤ) : ℝ)) ∧
    alook ((expiry_rows 10 1 1 "call" (build_price_points 10 10 1)).map
        fun row => (row.price, row.pl_total)) 10 =
      some (((if "call" = "call" then max 0 ((10 : ℝ) - 10)
          else max 0 ((10 : ℝ) - 10)) * 100 - 1 * 100) * ((1 : ℤ) : ℝ)) :=
  C4_grid_expiry_matches_table 10 1 30 1 0 1 "call" 10 10 (by norm_num) 10
    (by rw [bpp_ten_ten]; simp)

/-- C5: `build_price_points 10 20 1` is exactly the 11 points
`[10, 11, ..., 20]`; `build_price_points 10 10 1` is exactly `[10]`; and for
every `stock_min ≤ stock_max` with step 1.0 the returned sequence is strictly
increasing with every element an exact multiple of 0.01 (rounded to 2 decimal
places). -/
theorem C5_price_axis (stock_min stock_max : ℝ) (h : stock_min ≤ stock_max) :
    build_price_points 10 20 1 =
      [10, 11, 12, 13, 14, 15, 16, 17, 18, 19, 20] ∧
    build_price_points 10 10 1 = [10] ∧
    List.Pairwise (fun a b => a < b)
      (build_price_points stock_min stock_max 1) ∧
    ∀ x ∈ build_price_points stock_min stock_max 1,
      ∃ m : ℤ, x = (m : ℝ) / 100 := by
  refine ⟨bpp_ten_twenty, bpp_ten_ten, ?_, ?_⟩
  · exact List.chain'_iff_pairwise.mp (bpp_loop_chain stock_max _ stock_min)
  · exact fun x hx => bpp_loop_hundredths stock_max 1 _ stock_min x hx

/-- Witness for C5 at `stock_min = 10 ≤ stock_max = 20`. -/
theorem C5_price_axis_witness :
    build_price_points 10 20 1 =
      [10, 11, 12, 13, 14, 15, 16, 17, 18, 19, 20] ∧
    build_price_points 10 10 1 = [10] ∧
    List.Pairwise (fun a b => a < b) (build_price_points 10 20 1) ∧
    ∀ x ∈ build_price_points 10 20 1, ∃ m : ℤ, x = (m : ℝ) / 100 :=
  C5_price_axis 10 20 (by norm_num)

/-- C9: for every `step > 0` the `while` loop of `build_price_points`
terminates: its fuel-indexed unfolding is independent of the fuel from
`bpp_fuelFor` onwards, so the loop exits after finitely many iterations and
returns the finite list `build_price_points stock_min stock_max step`.
(`step ≤ 0` is a caller-enforced precondition; nothing is claimed there.) -/
theorem C9_termination (stock_min stock_max step : ℝ) (hstep : 0 < step)
    (fuel : ℕ) (hf : bpp_fuelFor stock_min stock_max step ≤ fuel) :
    bpp_loop stock_max step fuel stock_min =
      build_price_points stock_min stock_max step := by
  rw [build_price_points]
  exact bpp_loop_stable stock_max step hstep
    (bpp_fuelFor stock_min stock_max step) stock_min fuel
    (bpp_fuelFor stock_min stock_max step)
    (fuelFor_enough stock_min stock_max step) hf le_rfl

/-- Witness for C9 at `stock_min = 10`, `stock_max = 12`, `step = 1`. -/
theorem C9_termination_witness :
    bpp_loop 12 1 (bpp_fuelFor 10 12 1) 10 = build_price_points 10 12 1 :=
  C9_termination 10 12 1 (by norm_num) (bpp_fuelFor 10 12 1) le_rfl

/-- C2: for positive `S`, `K`, `T`, `sigma` and any rate `r`,
`black_scholes_price` returns `S·Φ(d1) - K·e^(-rT)·Φ(d2)` for a call and
`K·e^(-rT)·Φ(-d2) - S·Φ(-d1)` otherwise, where
`d1 = (ln(S/K) + (r + 0.5σ²)T)/(σ√T)`, `d2 = d1 - σ√T`, and
`Φ(x) = 0.5·(1 + erf(x/√2))` as computed by `norm_cdf`. -/
theorem C2_general_formula (S K T r sigma : ℝ) (option_type : String)
    (hS : 0 < S) (hK : 0 < K) (hT : 0 < T) (hsig : 0 < sigma) :
    black_scholes_price S K T r sigma option_type =
      (if option_type = "call" then
        S * norm_cdf (bs_d1 S K T r sigma)
          - K * Real.exp (-r * T) * norm_cdf (bs_d2 S K T r sigma)
      else
        K * Real.exp (-r * T) * norm_cdf (-bs_d2 S K T r sigma)
          - S * norm_cdf (-bs_d1 S K T r sigma)) ∧
    bs_d1 S K T r sigma =
      (Real.log (S / K) + (r + 0.5 * sigma ^ 2) * T) / (sigma * Real.sqrt T) ∧
    bs_d2 S K T r sigma = bs_d1 S K T r sigma - sigma * Real.sqrt T ∧
    ∀ x : ℝ, norm_cdf x = 0.5 * (1 + erf (x / Real.sqrt 2)) := by
  refine ⟨?_, by rw [bs_d1]; ring_nf, rfl, fun x => rfl⟩
  rw [black_scholes_price, if_neg (by rintro (h | h) <;> linarith)]

/-- Witness for C2 at `S=2, K=1, T=1, r=0, sigma=1`, option type "call". -/
theorem C2_general_formula_witness :
    black_scholes_price 2 1 1 0 1 "call" =
      (if ("call" : String) = "call" then
        2 * norm_cdf (bs_d1 2 1 1 0 1)
          - 1 * Real.exp (-0 * 1) * norm_cdf (bs_d2 2 1 1 0 1)
      else
        1 * Real.exp (-0 * 1) * norm_cdf (-bs_d2 2 1 1 0 1)
          - 2 * norm_cdf (-bs_d1 2 1 1 0 1)) ∧
    bs_d1 2 1 1 0 1 =
      (Real.log (2 / 1) + (0 + 0.5 * 1 ^ 2) * 1) / (1 * Real.sqrt 1) ∧
    bs_d2 2 1 1 0 1 = bs_d1 2 1 1 0 1 - 1 * Real.sqrt 1 ∧
    ∀ x : ℝ, norm_cdf x = 0.5 * (1 + erf (x / Real.sqrt 2)) :=
  C2_general_formula 2 1 1 0 1 "call" (by norm_num) (by norm_num)
    (by norm_num) (by norm_num)

/-- C7: at the money (`S = K`, `S > 0`) with `T > 0` and `sigma > 0`, the put
and call values satisfy put-call parity
`put - call = K·e^(-rT) - S`, exactly over the real-number model. -/
theorem C7_put_call_parity (S K T r sigma : ℝ) (hSK : S = K) (hS : 0 < S)
    (hT : 0 < T) (hsig : 0 < sigma) :
    black_scholes_price S K T r sigma "put"
        - black_scholes_price S K T r sigma "call"
      = K * Real.exp (-r * T) - S := by
  have hgen : ¬(T ≤ 0 ∨ sigma ≤ 0) := by rintro (h | h) <;> linarith
  rw [black_scholes_price, if_neg hgen, black_scholes_price, if_neg hgen,
    if_neg (by decide : ¬("put" : String) = "call"), if_pos rfl,
    norm_cdf_neg, norm_cdf_neg]
  ring

/-- Witness for C7 at `S = K = 1`, `T = 1`, `r = 0`, `sigma = 1`. -/
theorem C7_put_call_parity_witness :
    black_scholes_price 1 1 1 0 1 "put"
        - black_scholes_price 1 1 1 0 1 "call"
      = 1 * Real.exp (-0 * 1) - 1 :=
  C7_put_call_parity 1 1 1 0 1 rfl (by norm_num) (by norm_num) (by norm_num)

/-- C8 (amended): with `S=100, K=100, premium=5, contracts=1, T=1, r=0.02,
sigma=0.20`, the code yields `d1 = 0.2` and `d2 = 0` exactly (not ≈0.2100
and ≈0.0100), a call value strictly between 8.5 and 9 (≈8.916, not ≈9.227),
and a total P/L `(price×100 - 5×100)×1` strictly between 350 and 400
(≈391.6, not 422.7). -/
theorem C8_concrete_scenario :
    bs_d1 100 100 1 0.02 0.2 = 0.2 ∧
    bs_d2 100 100 1 0.02 0.2 = 0 ∧
    (8.5 < black_scholes_price 100 100 1 0.02 0.2 "call" ∧
      black_scholes_price 100 100 1 0.02 0.2 "call" < 9) ∧
    (350 < (black_scholes_price 100 100 1 0.02 0.2 "call" * 100 - 5 * 100) * 1 ∧
      (black_scholes_price 100 100 1 0.02 0.2 "call" * 100 - 5 * 100) * 1 < 400) := by
  obtain ⟨hl, hu⟩ := bs_call_concrete_bounds
  exact ⟨bs_d1_concrete, bs_d2_concrete, ⟨hl, hu⟩,
    by constructor <;> linarith⟩

/-- Counterexample to C8 as stated: at the stated inputs the call value
returned by the code differs from the claimed ≈9.227 by more than 0.2 (it
is below 9), and `d1` is not 0.21 (it is 0.2). -/
theorem C8_concrete_scenario_counterexample :
    |black_scholes_price 100 100 1 0.02 0.2 "call" - 9.227| > 0.2 ∧
    bs_d1 100 100 1 0.02 0.2 ≠ 0.21 := by
  obtain ⟨hl, hu⟩ := bs_call_concrete_bounds
  constructor
  · have h2 := neg_le_abs (black_scholes_price 100 100 1 0.02 0.2 "call" - 9.227)
    linarith
  · rw [bs_d1_concrete]
    norm_num

end FlaskApp
